import Mathlib

/-!
Verification of the JESD204B bring-up orchestration layer of
`axau15_adc08dj5200rf.py` (LiteX board file for AXAU15 + ADC08DJ5200RF).

The embedding models, faithfully to the source:
  * the per-lane init-done flags and `reduce(and_, ...)` combination
    (lines 344-345),
  * the `AsyncResetSynchronizer` on `cd_jesd` (line 346): asynchronous
    assertion, two-stage synchronous release,
  * Python list indexing as used by the lane-order comprehension
    `[jesd_phys[n] for n in adc08dj_phy_rx_order]` (line 349), including
    negative-index wrap-around and IndexError as `Option.none`,
  * the lane-count settings selector (lines 128-152),
  * the clock-domain frequencies (lines 264-294) over exact rationals,
  * the link-status combination (lines 370-373),
  * the with_reset flags of the generated clock domains (lines 285-287).
-/

namespace FastScope

/-- One physical serial lane's init-done flags, as exposed by the PHY
(`phy.tx_init.done`, `phy.rx_init.done`). -/
structure Lane where
  tx_init_done : Bool
  rx_init_done : Bool
deriving DecidableEq, Inhabited

/-- Python `reduce(and_, l)` on a list of booleans: fails (TypeError) on the
empty list, otherwise left-folds `&` starting from the head. -/
def reduceAnd : List Bool → Option Bool
  | [] => none
  | x :: xs => some (xs.foldl (fun a b => a && b) x)

/-- Line 344: `jesd_phys_tx_init_done = reduce(and_, [phy.tx_init.done for phy in jesd_phys])`. -/
def jesd_phys_tx_init_done (jesd_phys : List Lane) : Option Bool :=
  reduceAnd (jesd_phys.map (fun phy => phy.tx_init_done))

/-- Line 345: `jesd_phys_rx_init_done = reduce(and_, [phy.rx_init.done for phy in jesd_phys])`. -/
def jesd_phys_rx_init_done (jesd_phys : List Lane) : Option Bool :=
  reduceAnd (jesd_phys.map (fun phy => phy.rx_init_done))

/-- Line 346: the value fed to the `AsyncResetSynchronizer`:
`~(jesd_phys_tx_init_done & jesd_phys_rx_init_done)`. -/
def resetRequest (jesd_phys : List Lane) : Option Bool :=
  match jesd_phys_tx_init_done jesd_phys, jesd_phys_rx_init_done jesd_phys with
  | some t, some r => some (!(t && r))
  | _, _ => none

/-- State of the two-flop `AsyncResetSynchronizer` chain (migen lowering:
two flip-flops with asynchronous preset tied to the reset request, data chain
`0 → s0 → s1`, the domain's reset line taken after the second flop). -/
structure ARSState where
  s0 : Bool
  s1 : Bool
deriving DecidableEq, Inhabited

/-- Level seen on the domain's reset line: the asynchronous preset path makes
it high whenever the request is high, otherwise it is the second flop. -/
def arsOutput (req : Bool) (st : ARSState) : Bool :=
  req || st.s1

/-- One destination-domain clock edge of the synchronizer: while the request
is high both flops are (asynchronously) set; otherwise `0` shifts in. -/
def arsStep (req : Bool) (st : ARSState) : ARSState :=
  if req then ⟨true, true⟩ else ⟨false, st.s0⟩

/-- Reset line of `cd_jesd` as driven by line 346, given the lanes' flags and
the synchronizer state. -/
def resetLine (jesd_phys : List Lane) (st : ARSState) : Option Bool :=
  (resetRequest jesd_phys).map (fun req => arsOutput req st)

/-- `JESD204BPhysicalSettings(l=..., m=..., n=..., np=...)`. -/
structure JESD204BPhysicalSettings where
  l : Nat
  m : Nat
  n : Nat
  np : Nat
deriving DecidableEq

/-- `JESD204BTransportSettings(f=..., s=..., k=..., cs=...)`. -/
structure JESD204BTransportSettings where
  f : Nat
  s : Nat
  k : Nat
  cs : Nat
deriving DecidableEq

/-- `JESD204BSettings(ps, ts, did=..., bid=..., framing=..., scrambling=...)`. -/
structure JESD204BSettings where
  ps : JESD204BPhysicalSettings
  ts : JESD204BTransportSettings
  did : Nat
  bid : Nat
  framing : Bool
  scrambling : Bool
deriving DecidableEq

/-- The settings constructed by one branch of the lane-count dispatch; the
8-lane branch constructs only RX settings (the TX block is commented out). -/
structure JESDConfig where
  settings_rx : JESD204BSettings
  settings_tx : Option JESD204BSettings
deriving DecidableEq

/-- Line 123-124: `framing = True`, `scrambling = True`. -/
def framing : Bool := true

/-- Line 124. -/
def scrambling : Bool := true

/-- Lines 128-152: dispatch on `jesd_lanes`; `raise NotImplementedError` is
modelled as `Except.error "NotImplementedError"`. -/
def selectConfig (jesd_lanes : Nat) : Except String JESDConfig :=
  if jesd_lanes = 2 then
    .error "NotImplementedError"
  else if jesd_lanes = 4 then
    .ok
      { settings_rx :=
          { ps := { l := 4, m := 4, n := 8, np := 8 }
            ts := { f := 2, s := 1, k := 32, cs := 0 }
            did := 0x5a, bid := 0x5, framing := framing, scrambling := scrambling }
        settings_tx := some
          { ps := { l := 4, m := 4, n := 8, np := 8 }
            ts := { f := 2, s := 1, k := 32, cs := 0 }
            did := 0x5a, bid := 0x5, framing := framing, scrambling := scrambling } }
  else if jesd_lanes = 8 then
    .ok
      { settings_rx :=
          { ps := { l := 8, m := 4, n := 16, np := 16 }
            ts := { f := 2, s := 1, k := 32, cs := 0 }
            did := 0x5a, bid := 0x5, framing := framing, scrambling := scrambling }
        settings_tx := none }
  else
    .error "NotImplementedError"

/-- Line 120: `adc08dj_refclk_freq = 156.25e6` (exact rational). -/
def adc08dj_refclk_freq : ℚ := 156250000

/-- Line 121: `adc08dj_jesd_linerate = 6.2500e9`. -/
def adc08dj_jesd_linerate : ℚ := 6250000000

/-- Line 265: `userclk_freq = adc08dj_jesd_linerate/40`. -/
def userclk_freq : ℚ := adc08dj_jesd_linerate / 40

/-- Line 284: `pll.register_clkin(refclk_div2, adc08dj_refclk_freq/2)`. -/
def pll_clkin_freq : ℚ := adc08dj_refclk_freq / 2

/-- Line 285: `pll.create_clkout(self.cd_jesd_156_25, userclk_freq, ...)`. -/
def cd_jesd_156_25_freq : ℚ := userclk_freq

/-- Line 286: `pll.create_clkout(self.cd_jesd_78_125, userclk_freq/2, ...)`. -/
def cd_jesd_78_125_freq : ℚ := userclk_freq / 2

/-- Line 287: `pll.create_clkout(self.cd_clk156_25, 156.25e6, ...)`. -/
def cd_clk156_25_freq : ℚ := 156250000

/-- Lines 370-373: `jesd_link_status` is
`(enable & jsync) & (enable & jsync)` (the duplication is in the source). -/
def jesd_link_status (enable jsync : Bool) : Bool :=
  (enable && jsync) && (enable && jsync)

/-- Lines 285-287: the clock domains created by `pll.create_clkout`, paired
with their `with_reset` argument (all three pass `with_reset=False`). -/
def pllClkouts : List (String × Bool) :=
  [("jesd_156_25", false), ("jesd_78_125", false), ("clk156_25", false)]

/-- Line 346: `cd_jesd` is the unique domain whose reset this layer drives
(target of the `AsyncResetSynchronizer`). -/
def resetDrivenDomain : String := "jesd"

/-- The orchestration layer's effect on the family of domain resets: only
`cd_jesd` is (re)driven, every other domain's reset is left untouched. -/
def updateResets (rstJesd : Bool) (resets : String → Bool) : String → Bool :=
  fun d => if d = resetDrivenDomain then rstJesd else resets d

/-- Python list indexing `xs[n]`: a negative index wraps by adding
`len(xs)`; an index that is then out of `[0, len)` raises IndexError,
modelled as `none`. -/
def pyGet {α : Type} (xs : List α) (n : Int) : Option α :=
  let i := if n < 0 then n + xs.length else n
  if h : 0 ≤ i ∧ i.toNat < xs.length then some (xs.get ⟨i.toNat, h.2⟩) else none

/-- List-comprehension evaluation: apply `f` to each element in order,
aborting with `none` at the first failure (Python's IndexError unwinds the
whole comprehension). -/
def listComp {α β : Type} (f : α → Option β) : List α → Option (List β)
  | [] => some []
  | a :: as =>
    match f a, listComp f as with
    | some b, some bs => some (b :: bs)
    | _, _ => none

/-- Line 349: `jesd_phys_rx = [jesd_phys[n] for n in adc08dj_phy_rx_order]`;
the comprehension evaluates every index before the resulting array is handed
to the protocol core, and an IndexError aborts it (`none`). -/
def jesd_phys_rx {α : Type} (jesd_phys : List α) (order : List Int) :
    Option (List α) :=
  listComp (pyGet jesd_phys) order

/-- Line 118: `adc08dj_phy_rx_order = [3, 0, 2, 1]`. -/
def adc08dj_phy_rx_order : List Int := [3, 0, 2, 1]

/-- The 8-lane order map of the end-to-end scenario: line 118 with its
commented-out tail `7, 4, 6, 5` restored. -/
def adc08dj_phy_rx_order_8 : List Int := [3, 0, 2, 1, 7, 4, 6, 5]

/-- Inverse of a lane-order map: position `i` holds the index at which `i`
occurs in the map (`inv = [order.index(i) for i in range(len(order))]`). -/
def invOrder (order : List Int) : List Int :=
  (List.range order.length).map (fun i : Nat => ((order.indexOf ((i : Int))) : Int))

/- ------------------------------------------------------------------ -/
/- Helper lemmas                                                       -/
/- ------------------------------------------------------------------ -/

lemma foldl_and_eq (x : Bool) (xs : List Bool) :
    xs.foldl (fun a b => a && b) x = (x && xs.all (fun b => b)) := by
  induction xs generalizing x with
  | nil => simp
  | cons y ys ih =>
    simp only [List.foldl_cons, List.all_cons, ih, Bool.and_assoc]

lemma reduceAnd_cons (x : Bool) (xs : List Bool) :
    reduceAnd (x :: xs) = some ((x :: xs).all (fun b => b)) := by
  simp [reduceAnd, foldl_and_eq]

lemma all_map_id {α : Type} (f : α → Bool) (l : List α) :
    (l.map f).all (fun b => b) = l.all f := by
  induction l with
  | nil => rfl
  | cons a as ih => simp [ih]

lemma reduceAnd_map_eq {α : Type} (f : α → Bool) (l : List α) (h : l ≠ []) :
    reduceAnd (l.map f) = some (l.all f) := by
  cases l with
  | nil => exact absurd rfl h
  | cons a as =>
    rw [List.map_cons, reduceAnd_cons]
    rw [← List.map_cons, all_map_id]

lemma tx_init_done_eq (jesd_phys : List Lane) (h : jesd_phys ≠ []) :
    jesd_phys_tx_init_done jesd_phys
      = some (jesd_phys.all (fun phy => phy.tx_init_done)) :=
  reduceAnd_map_eq _ _ h

lemma rx_init_done_eq (jesd_phys : List Lane) (h : jesd_phys ≠ []) :
    jesd_phys_rx_init_done jesd_phys
      = some (jesd_phys.all (fun phy => phy.rx_init_done)) :=
  reduceAnd_map_eq _ _ h

lemma resetRequest_eq (jesd_phys : List Lane) (h : jesd_phys ≠ []) :
    resetRequest jesd_phys
      = some (!(jesd_phys.all (fun phy => phy.tx_init_done)
              && jesd_phys.all (fun phy => phy.rx_init_done))) := by
  rw [resetRequest, tx_init_done_eq _ h, rx_init_done_eq _ h]

/- ------------------------------------------------------------------ -/
/- C2                                                                  -/
/- ------------------------------------------------------------------ -/

/-- C2: for every nonempty assignment of the lanes' per-direction init-done
flags, `jesd_phys_tx_init_done` equals the conjunction of `tx_init_done` over
all lanes and `jesd_phys_rx_init_done` the conjunction of `rx_init_done`;
forcing any single lane's flag to false makes the corresponding combined
signal false, independent of which lane it is. -/
theorem C2_combined_ready (jesd_phys : List Lane) (h : jesd_phys ≠ []) :
    jesd_phys_tx_init_done jesd_phys
        = some (jesd_phys.all (fun phy => phy.tx_init_done))
    ∧ jesd_phys_rx_init_done jesd_phys
        = some (jesd_phys.all (fun phy => phy.rx_init_done))
    ∧ (∀ (i : Nat) (hi : i < jesd_phys.length),
        jesd_phys_tx_init_done
          (jesd_phys.set i
            { jesd_phys.get ⟨i, hi⟩ with tx_init_done := false }) = some false
        ∧ jesd_phys_rx_init_done
          (jesd_phys.set i
            { jesd_phys.get ⟨i, hi⟩ with rx_init_done := false }) = some false) := by
  refine ⟨tx_init_done_eq _ h, rx_init_done_eq _ h, ?_⟩
  intro i hi
  have hne : ∀ (v : Lane), jesd_phys.set i v ≠ [] := by
    intro v hcon
    have := congrArg List.length hcon
    simp at this
    exact h this
  constructor
  · rw [tx_init_done_eq _ (hne _)]
    have : (jesd_phys.set i { jesd_phys.get ⟨i, hi⟩ with tx_init_done := false }).all
        (fun phy => phy.tx_init_done) = false := by
      apply List.all_eq_false.mpr
      exact ⟨_, List.mem_set jesd_phys i hi _, by simp⟩
    rw [this]
  · rw [rx_init_done_eq _ (hne _)]
    have : (jesd_phys.set i { jesd_phys.get ⟨i, hi⟩ with rx_init_done := false }).all
        (fun phy => phy.rx_init_done) = false := by
      apply List.all_eq_false.mpr
      exact ⟨_, List.mem_set jesd_phys i hi _, by simp⟩
    rw [this]

/-- C2 witness at a concrete two-lane configuration. -/
theorem C2_combined_ready_witness :
    ([⟨true, true⟩, ⟨true, false⟩] : List Lane) ≠ []
    ∧ (jesd_phys_tx_init_done [⟨true, true⟩, ⟨true, false⟩]
          = some (([⟨true, true⟩, ⟨true, false⟩] : List Lane).all
              (fun phy => phy.tx_init_done))
        ∧ jesd_phys_rx_init_done [⟨true, true⟩, ⟨true, false⟩]
          = some (([⟨true, true⟩, ⟨true, false⟩] : List Lane).all
              (fun phy => phy.rx_init_done))
        ∧ (∀ (i : Nat) (hi : i < ([⟨true, true⟩, ⟨true, false⟩] : List Lane).length),
            jesd_phys_tx_init_done
              (([⟨true, true⟩, ⟨true, false⟩] : List Lane).set i
                { ([⟨true, true⟩, ⟨true, false⟩] : List Lane).get ⟨i, hi⟩ with
                    tx_init_done := false }) = some false
            ∧ jesd_phys_rx_init_done
              (([⟨true, true⟩, ⟨true, false⟩] : List Lane).set i
                { ([⟨true, true⟩, ⟨true, false⟩] : List Lane).get ⟨i, hi⟩ with
                    rx_init_done := false }) = some false)) :=
  ⟨by simp, C2_combined_ready [⟨true, true⟩, ⟨true, false⟩] (by simp)⟩

lemma perm_all_eq {α : Type} {l1 l2 : List α} (hp : l1.Perm l2) (p : α → Bool) :
    l1.all p = l2.all p := by
  cases h1 : l1.all p with
  | true =>
    symm
    exact List.all_eq_true.mpr
      (fun x hx => List.all_eq_true.mp h1 x (hp.mem_iff.mpr hx))
  | false =>
    obtain ⟨x, hx, hpx⟩ := List.all_eq_false.mp h1
    symm
    exact List.all_eq_false.mpr ⟨x, hp.mem_iff.mp hx, hpx⟩

lemma listComp_eq_none {α β : Type} (f : α → Option β) {l : List α} {a : α}
    (ha : a ∈ l) (hf : f a = none) : listComp f l = none := by
  induction l with
  | nil => cases ha
  | cons b bs ih =>
    rcases List.mem_cons.mp ha with h1 | h1
    · subst h1
      simp [listComp, hf]
    · cases hb : f b <;> simp [listComp, hb, ih h1]

lemma listComp_eq_some_map {α β : Type} (f : α → Option β) (g : α → β)
    (l : List α) (h : ∀ a ∈ l, f a = some (g a)) :
    listComp f l = some (l.map g) := by
  induction l with
  | nil => rfl
  | cons b bs ih =>
    rw [listComp, h b (List.mem_cons_self _ _),
      ih (fun a ha => h a (List.mem_cons_of_mem _ ha))]
    rfl

lemma pyGet_nonneg {α : Type} (xs : List α) (n : Int) (d : α)
    (h0 : 0 ≤ n) (hl : n.toNat < xs.length) :
    pyGet xs n = some (xs.getD n.toNat d) := by
  have hneg : ¬ n < 0 := by omega
  unfold pyGet
  simp only [hneg, if_false]
  rw [dif_pos ⟨h0, hl⟩, List.getD_eq_getElem _ _ hl]
  simp

lemma pyGet_oob {α : Type} (xs : List α) (n : Int)
    (h : (xs.length : Int) ≤ n ∨ n < -(xs.length : Int)) : pyGet xs n = none := by
  unfold pyGet
  rw [dif_neg]
  rintro ⟨h0, hl⟩
  rcases h with h | h
  · rw [if_neg (by omega : ¬ n < 0)] at h0 hl
    omega
  · rw [if_pos (by omega : n < 0)] at h0 hl
    omega

/- ------------------------------------------------------------------ -/
/- C1                                                                  -/
/- ------------------------------------------------------------------ -/

/-- C1: the reset request on `cd_jesd` is high iff at least one lane flag is
false; assertion propagates through the asynchronous path at the same level
for every synchronizer state (no clock-edge lag), while release lags the
combined-ready transition: from the asserted synchronizer state the line is
still high with all flags true, and only goes low after the synchronization
stages have shifted through. -/
theorem C1_reset_barrier (jesd_phys : List Lane) (h : jesd_phys ≠ [])
    (st : ARSState) :
    (resetRequest jesd_phys = some true
      ↔ ∃ phy ∈ jesd_phys, phy.tx_init_done = false ∨ phy.rx_init_done = false)
    ∧ ((∃ phy ∈ jesd_phys, phy.tx_init_done = false ∨ phy.rx_init_done = false) →
        resetLine jesd_phys st = some true)
    ∧ ((∀ phy ∈ jesd_phys, phy.tx_init_done = true ∧ phy.rx_init_done = true) →
        resetLine jesd_phys ⟨true, true⟩ = some true
        ∧ resetLine jesd_phys (arsStep false (arsStep false ⟨true, true⟩)) = some false) := by
  have hval := resetRequest_eq jesd_phys h
  have hiff : resetRequest jesd_phys = some true
      ↔ ∃ phy ∈ jesd_phys, phy.tx_init_done = false ∨ phy.rx_init_done = false := by
    rw [hval]
    simp only [Option.some.injEq, Bool.not_and, Bool.or_eq_true, Bool.not_eq_true']
    rw [List.all_eq_false, List.all_eq_false]
    simp only [Bool.not_eq_true]
    constructor
    · rintro (⟨phy, hm, hp⟩ | ⟨phy, hm, hp⟩)
      · exact ⟨phy, hm, Or.inl hp⟩
      · exact ⟨phy, hm, Or.inr hp⟩
    · rintro ⟨phy, hm, hp | hp⟩
      · exact Or.inl ⟨phy, hm, hp⟩
      · exact Or.inr ⟨phy, hm, hp⟩
  refine ⟨hiff, ?_, ?_⟩
  · intro hex
    have hreq : resetRequest jesd_phys = some true := hiff.mpr hex
    rw [resetLine, hreq]
    simp [arsOutput]
  · intro hall
    have htx : jesd_phys.all (fun phy => phy.tx_init_done) = true :=
      List.all_eq_true.mpr (fun phy hm => (hall phy hm).1)
    have hrx : jesd_phys.all (fun phy => phy.rx_init_done) = true :=
      List.all_eq_true.mpr (fun phy hm => (hall phy hm).2)
    have hreq : resetRequest jesd_phys = some false := by
      rw [hval, htx, hrx]
      rfl
    constructor
    · rw [resetLine, hreq]
      rfl
    · rw [resetLine, hreq]
      rfl

/-- C1 witness: one lane with `tx_init_done = false`, synchronizer fully
released. -/
theorem C1_reset_barrier_witness :
    ([⟨false, true⟩] : List Lane) ≠ []
    ∧ ((resetRequest [⟨false, true⟩] = some true
          ↔ ∃ phy ∈ ([⟨false, true⟩] : List Lane),
              phy.tx_init_done = false ∨ phy.rx_init_done = false)
        ∧ ((∃ phy ∈ ([⟨false, true⟩] : List Lane),
              phy.tx_init_done = false ∨ phy.rx_init_done = false) →
            resetLine [⟨false, true⟩] ⟨false, false⟩ = some true)
        ∧ ((∀ phy ∈ ([⟨false, true⟩] : List Lane),
              phy.tx_init_done = true ∧ phy.rx_init_done = true) →
            resetLine [⟨false, true⟩] ⟨true, true⟩ = some true
            ∧ resetLine [⟨false, true⟩]
                (arsStep false (arsStep false ⟨true, true⟩)) = some false)) :=
  ⟨by simp, C1_reset_barrier [⟨false, true⟩] (by simp) ⟨false, false⟩⟩

/- ------------------------------------------------------------------ -/
/- C4                                                                  -/
/- ------------------------------------------------------------------ -/

/-- C4: a lane count of 2 raises `NotImplementedError` (hard fault, not a
fallback); every count other than 4 and 8, including 0, also faults at setup;
counts 4 and 8 succeed and construct the settings objects. -/
theorem C4_lane_count_dispatch :
    selectConfig 2 = .error "NotImplementedError"
    ∧ selectConfig 0 = .error "NotImplementedError"
    ∧ (∀ jesd_lanes : Nat, jesd_lanes ≠ 4 → jesd_lanes ≠ 8 →
        selectConfig jesd_lanes = .error "NotImplementedError")
    ∧ (∃ c : JESDConfig, selectConfig 4 = .ok c)
    ∧ (∃ c : JESDConfig, selectConfig 8 = .ok c) := by
  refine ⟨rfl, rfl, ?_, ⟨_, rfl⟩, ⟨_, rfl⟩⟩
  intro jesd_lanes h4 h8
  by_cases h2 : jesd_lanes = 2
  · subst h2; rfl
  · simp [selectConfig, h2, h4, h8]

/- ------------------------------------------------------------------ -/
/- C5                                                                  -/
/- ------------------------------------------------------------------ -/

/-- C5: the full-rate domain is exactly `linerate / 40 = 156.25 MHz`, the
half-rate domain exactly half that (78.125 MHz), the auxiliary domain a fixed
156.25 MHz, all in exact rational ratio to the reference input, and the
synthesis stage is registered at `adc08dj_refclk_freq / 2 = 78.125 MHz`. -/
theorem C5_clock_frequencies :
    cd_jesd_156_25_freq = 156250000
    ∧ cd_jesd_78_125_freq = 78125000
    ∧ cd_clk156_25_freq = 156250000
    ∧ pll_clkin_freq = 78125000
    ∧ cd_jesd_156_25_freq = adc08dj_jesd_linerate / 40
    ∧ cd_jesd_78_125_freq * 2 = cd_jesd_156_25_freq
    ∧ cd_jesd_156_25_freq / adc08dj_refclk_freq = 1
    ∧ cd_jesd_78_125_freq / adc08dj_refclk_freq = 1 / 2
    ∧ cd_clk156_25_freq / adc08dj_refclk_freq = 1
    ∧ pll_clkin_freq / adc08dj_refclk_freq = 1 / 2 := by
  refine ⟨?_, ?_, rfl, ?_, rfl, ?_, ?_, ?_, ?_, ?_⟩ <;>
    norm_num [cd_jesd_156_25_freq, cd_jesd_78_125_freq, cd_clk156_25_freq,
      pll_clkin_freq, userclk_freq, adc08dj_jesd_linerate, adc08dj_refclk_freq]

/- ------------------------------------------------------------------ -/
/- C6                                                                  -/
/- ------------------------------------------------------------------ -/

/-- C6: for all boolean pairs, the link status equals `enable AND jsync`;
enable=true with jsync=false gives false, enable=true with jsync=true gives
true; the source's duplicated AND has no semantic effect. -/
theorem C6_link_status :
    (∀ enable jsync : Bool, jesd_link_status enable jsync = (enable && jsync))
    ∧ jesd_link_status true false = false
    ∧ jesd_link_status true true = true := by
  refine ⟨?_, rfl, rfl⟩
  intro enable jsync
  cases enable <;> cases jsync <;> rfl

/- ------------------------------------------------------------------ -/
/- C3                                                                  -/
/- ------------------------------------------------------------------ -/

/-- C3 counterexample: the order map `[0, 0, 2, 3]` has a duplicate entry,
yet the comprehension of line 349 accepts it and produces a lane array —
configuration does not halt as the claim requires. -/
theorem C3_duplicate_accepted :
    ¬ ([0, 0, 2, 3] : List Int).Nodup
    ∧ jesd_phys_rx (List.range 4) [0, 0, 2, 3] = some [0, 0, 2, 3] := by
  constructor
  · decide
  · rfl

/-- C3 amended: an order-map entry at or above the lane count (or below the
negative wrap-around range) raises IndexError inside the comprehension of
line 349, i.e. configuration faults before the lane array is handed to the
protocol core; duplicate entries are not detected. -/
theorem C3_oob_fault {α : Type} (jesd_phys : List α) (order : List Int)
    (n : Int) (hn : n ∈ order)
    (hoob : (jesd_phys.length : Int) ≤ n ∨ n < -(jesd_phys.length : Int)) :
    jesd_phys_rx jesd_phys order = none :=
  listComp_eq_none _ hn (pyGet_oob _ _ hoob)

/-- C3 witness: index 5 in a 4-lane configuration faults. -/
theorem C3_oob_fault_witness :
    ((5 : Int) ∈ ([5, 0, 1, 2] : List Int)
      ∧ (((List.range 4).length : Int) ≤ 5
          ∨ (5 : Int) < -((List.range 4).length : Int)))
    ∧ jesd_phys_rx (List.range 4) [5, 0, 1, 2] = none :=
  ⟨⟨by decide, Or.inl (by decide)⟩,
    C3_oob_fault (List.range 4) [5, 0, 1, 2] 5 (by decide) (Or.inl (by decide))⟩

/- ------------------------------------------------------------------ -/
/- C7                                                                  -/
/- ------------------------------------------------------------------ -/

/-- C7: in the 8-lane scenario (order map `[3, 0, 2, 1, 7, 4, 6, 5]`, whose
length fixes `jesd_lanes = 8`), as long as physical lane 3's `rx_init_done`
is still false, `jesd_phys_rx_init_done` is false, whatever the other seven
lanes report. -/
theorem C7_lane3_gates_ready (jesd_phys : List Lane)
    (h8 : jesd_phys.length = 8)
    (h3 : ∀ (hlt : 3 < jesd_phys.length),
        (jesd_phys.get ⟨3, hlt⟩).rx_init_done = false) :
    adc08dj_phy_rx_order_8.length = 8
    ∧ jesd_phys_rx_init_done jesd_phys = some false := by
  have hlt : 3 < jesd_phys.length := by omega
  have hne : jesd_phys ≠ [] := by
    intro hcon
    rw [hcon] at h8
    simp at h8
  refine ⟨rfl, ?_⟩
  rw [rx_init_done_eq _ hne]
  have hx : jesd_phys[3].rx_init_done = false := by
    have := h3 hlt
    simpa using this
  have hall : jesd_phys.all (fun phy => phy.rx_init_done) = false :=
    List.all_eq_false.mpr ⟨_, List.getElem_mem hlt, by simp [hx]⟩
  rw [hall]

/-- C7 witness: all lanes done except physical lane 3. -/
theorem C7_lane3_gates_ready_witness :
    ([⟨true, true⟩, ⟨true, true⟩, ⟨true, true⟩, ⟨true, false⟩,
        ⟨true, true⟩, ⟨true, true⟩, ⟨true, true⟩, ⟨true, true⟩] : List Lane).length = 8
    ∧ (adc08dj_phy_rx_order_8.length = 8
        ∧ jesd_phys_rx_init_done
            [⟨true, true⟩, ⟨true, true⟩, ⟨true, true⟩, ⟨true, false⟩,
              ⟨true, true⟩, ⟨true, true⟩, ⟨true, true⟩, ⟨true, true⟩] = some false) :=
  ⟨rfl, C7_lane3_gates_ready _ rfl (fun _ => rfl)⟩

/- ------------------------------------------------------------------ -/
/- C8                                                                  -/
/- ------------------------------------------------------------------ -/

/-- C8: for every order map that is a true permutation of `0..N-1`, applying
the map (line 349's comprehension) to the identity-ordered lane array and
then applying the map's inverse permutation yields the original array. -/
theorem C8_roundtrip (N : Nat) (order : List Int)
    (h : order.Perm ((List.range N).map (fun i : Nat => (i : Int)))) :
    jesd_phys_rx (List.range N) order = some (order.map (fun n => n.toNat))
    ∧ jesd_phys_rx (order.map (fun n => n.toNat)) (invOrder order)
        = some (List.range N) := by
  have hlen : order.length = N := by
    have := h.length_eq
    simpa using this
  have hmem : ∀ n ∈ order, 0 ≤ n ∧ n < (N : Int) := by
    intro n hn
    have hn2 : n ∈ (List.range N).map (fun i : Nat => (i : Int)) := h.mem_iff.mp hn
    obtain ⟨i, hi, rfl⟩ := List.mem_map.mp hn2
    have := List.mem_range.mp hi
    omega
  constructor
  · apply listComp_eq_some_map
    intro n hn
    obtain ⟨h0, hlt⟩ := hmem n hn
    have hl : n.toNat < (List.range N).length := by
      simp only [List.length_range]
      omega
    rw [pyGet_nonneg _ _ 0 h0 hl]
    congr 1
    rw [List.getD_eq_getElem _ _ hl, List.getElem_range]
  · have hmidlen : (order.map (fun n => n.toNat)).length = N := by
      simp [hlen]
    have key : ∀ j ∈ List.range N,
        (order.map (fun n => n.toNat)).getD
          ((order.indexOf ((j : Int)) : Int)).toNat 0 = j := by
      intro j hj
      have hjN := List.mem_range.mp hj
      have hjmem : ((j : Nat) : Int) ∈ order :=
        h.mem_iff.mpr (List.mem_map.mpr ⟨j, List.mem_range.mpr hjN, rfl⟩)
      have hidx : order.indexOf ((j : Int)) < order.length :=
        List.indexOf_lt_length.mpr hjmem
      have hk : ((order.indexOf ((j : Int)) : Int)).toNat
          = order.indexOf ((j : Int)) := Int.toNat_natCast _
      rw [hk, List.getD_eq_getElem _ _ (by simpa using hidx),
        List.getElem_map, List.getElem_indexOf hidx]
      exact Int.toNat_natCast j
    have hpy : ∀ a ∈ invOrder order,
        pyGet (order.map (fun n => n.toNat)) a
          = some ((order.map (fun n => n.toNat)).getD a.toNat 0) := by
      intro a ha
      rw [invOrder, hlen] at ha
      obtain ⟨j, hj, rfl⟩ := List.mem_map.mp ha
      have hjN := List.mem_range.mp hj
      have hjmem : ((j : Nat) : Int) ∈ order :=
        h.mem_iff.mpr (List.mem_map.mpr ⟨j, List.mem_range.mpr hjN, rfl⟩)
      have hidx : order.indexOf ((j : Int)) < order.length :=
        List.indexOf_lt_length.mpr hjmem
      exact pyGet_nonneg _ _ 0 (by omega)
        (by rw [Int.toNat_natCast]; simpa using hidx)
    rw [jesd_phys_rx, listComp_eq_some_map _ _ _ hpy]
    congr 1
    rw [invOrder, hlen, List.map_map]
    have hcong : ∀ j ∈ List.range N,
        ((fun a : Int => (order.map (fun n => n.toNat)).getD a.toNat 0)
          ∘ (fun i : Nat => ((order.indexOf ((i : Int))) : Int))) j
        = (fun j : Nat => j) j := by
      intro j hj
      exact key j hj
    rw [List.map_congr_left hcong]
    simp

/-- C8 witness: the configured map `[3, 0, 2, 1]` is a permutation of
`0..3` and round-trips. -/
theorem C8_roundtrip_witness :
    ([3, 0, 2, 1] : List Int).Perm ((List.range 4).map (fun i : Nat => (i : Int)))
    ∧ (jesd_phys_rx (List.range 4) adc08dj_phy_rx_order
          = some (adc08dj_phy_rx_order.map (fun n => n.toNat))
        ∧ jesd_phys_rx (adc08dj_phy_rx_order.map (fun n => n.toNat))
            (invOrder adc08dj_phy_rx_order) = some (List.range 4)) :=
  ⟨by decide, C8_roundtrip 4 adc08dj_phy_rx_order (by decide)⟩

/- ------------------------------------------------------------------ -/
/- C9                                                                  -/
/- ------------------------------------------------------------------ -/

/-- C9: the order map only permutes the lane array handed to the RX core;
the combined-ready signals and the reset request, computed on lines 344-346
over the un-remapped physical list, take the same values on the remapped
array for every permutation chosen as the order map. -/
theorem C9_order_invariance (jesd_phys : List Lane) (order : List Int)
    (h : order.Perm ((List.range jesd_phys.length).map (fun i : Nat => (i : Int)))) :
    ∃ remapped,
      jesd_phys_rx jesd_phys order = some remapped
      ∧ remapped.Perm jesd_phys
      ∧ jesd_phys_tx_init_done remapped = jesd_phys_tx_init_done jesd_phys
      ∧ jesd_phys_rx_init_done remapped = jesd_phys_rx_init_done jesd_phys
      ∧ resetRequest remapped = resetRequest jesd_phys := by
  have hmem : ∀ n ∈ order, 0 ≤ n ∧ n < (jesd_phys.length : Int) := by
    intro n hn
    have hn2 : n ∈ (List.range jesd_phys.length).map (fun i : Nat => (i : Int)) :=
      h.mem_iff.mp hn
    obtain ⟨i, hi, rfl⟩ := List.mem_map.mp hn2
    have := List.mem_range.mp hi
    omega
  refine ⟨order.map (fun n => jesd_phys.getD n.toNat default), ?_, ?_, ?_⟩
  · apply listComp_eq_some_map
    intro n hn
    obtain ⟨h0, hlt⟩ := hmem n hn
    exact pyGet_nonneg _ _ default h0 (by omega)
  · have h2 := h.map (fun n : Int => jesd_phys.getD n.toNat default)
    rw [List.map_map] at h2
    have h3 : (List.range jesd_phys.length).map
        ((fun n : Int => jesd_phys.getD n.toNat default)
          ∘ (fun i : Nat => (i : Int))) = jesd_phys := by
      apply List.ext_getElem
      · simp
      · intro i hi1 hi2
        simp only [List.getElem_map, Function.comp_apply, List.getElem_range,
          Int.toNat_natCast]
        exact List.getD_eq_getElem _ _ hi2
    rw [h3] at h2
    exact h2
  · have h2 := h.map (fun n : Int => jesd_phys.getD n.toNat default)
    rw [List.map_map] at h2
    have h3 : (List.range jesd_phys.length).map
        ((fun n : Int => jesd_phys.getD n.toNat default)
          ∘ (fun i : Nat => (i : Int))) = jesd_phys := by
      apply List.ext_getElem
      · simp
      · intro i hi1 hi2
        simp only [List.getElem_map, Function.comp_apply, List.getElem_range,
          Int.toNat_natCast]
        exact List.getD_eq_getElem _ _ hi2
    rw [h3] at h2
    by_cases hnil : jesd_phys = []
    · subst hnil
      have hr : order.map (fun n : Int => ([] : List Lane).getD n.toNat default)
          = [] := List.perm_nil.mp h2
      rw [hr]
      exact ⟨rfl, rfl, rfl⟩
    · have hrnil : order.map (fun n : Int => jesd_phys.getD n.toNat default) ≠ [] := by
        intro hcon
        rw [hcon] at h2
        exact hnil (List.perm_nil.mp h2.symm)
      refine ⟨?_, ?_, ?_⟩
      · rw [tx_init_done_eq _ hrnil, tx_init_done_eq _ hnil, perm_all_eq h2]
      · rw [rx_init_done_eq _ hrnil, rx_init_done_eq _ hnil, perm_all_eq h2]
      · rw [resetRequest_eq _ hrnil, resetRequest_eq _ hnil,
          perm_all_eq h2, perm_all_eq h2]

/-- C9 witness: a two-lane configuration with the swap map `[1, 0]`. -/
theorem C9_order_invariance_witness :
    ([1, 0] : List Int).Perm
        ((List.range ([⟨true, true⟩, ⟨false, true⟩] : List Lane).length).map
          (fun i : Nat => (i : Int)))
    ∧ ∃ remapped,
        jesd_phys_rx ([⟨true, true⟩, ⟨false, true⟩] : List Lane) [1, 0]
            = some remapped
        ∧ remapped.Perm ([⟨true, true⟩, ⟨false, true⟩] : List Lane)
        ∧ jesd_phys_tx_init_done remapped
            = jesd_phys_tx_init_done [⟨true, true⟩, ⟨false, true⟩]
        ∧ jesd_phys_rx_init_done remapped
            = jesd_phys_rx_init_done [⟨true, true⟩, ⟨false, true⟩]
        ∧ resetRequest remapped
            = resetRequest [⟨true, true⟩, ⟨false, true⟩] :=
  ⟨by decide, C9_order_invariance [⟨true, true⟩, ⟨false, true⟩] [1, 0] (by decide)⟩

/- ------------------------------------------------------------------ -/
/- C10                                                                 -/
/- ------------------------------------------------------------------ -/

/-- C10: every domain generated by `pll.create_clkout` (lines 285-287) is
created with `with_reset=False`, none of them is the domain whose reset the
`AsyncResetSynchronizer` of line 346 drives, and the layer's reset update
leaves each of their reset lines unchanged. -/
theorem C10_other_resets_untouched (rstJesd : Bool) (resets : String → Bool)
    (d : String) (hd : d ∈ pllClkouts.map Prod.fst) :
    (d, true) ∉ pllClkouts
    ∧ d ≠ resetDrivenDomain
    ∧ updateResets rstJesd resets d = resets d
    ∧ (∀ p ∈ pllClkouts, p.2 = false) := by
  have hds : d = "jesd_156_25" ∨ d = "jesd_78_125" ∨ d = "clk156_25" := by
    simpa [pllClkouts] using hd
  have hne : d ≠ resetDrivenDomain := by
    rcases hds with rfl | rfl | rfl <;> decide
  refine ⟨?_, hne, ?_, ?_⟩
  · rcases hds with rfl | rfl | rfl <;> decide
  · simp only [updateResets, if_neg hne]
  · decide

/-- C10 witness: the full-rate domain `cd_jesd_156_25`, with the reset
barrier asserted. -/
theorem C10_other_resets_untouched_witness :
    "jesd_156_25" ∈ pllClkouts.map Prod.fst
    ∧ (("jesd_156_25", true) ∉ pllClkouts
        ∧ "jesd_156_25" ≠ resetDrivenDomain
        ∧ updateResets true (fun _ => false) "jesd_156_25"
            = (fun _ => false) "jesd_156_25"
        ∧ (∀ p ∈ pllClkouts, p.2 = false)) :=
  ⟨by decide, C10_other_resets_untouched true (fun _ => false) "jesd_156_25" (by decide)⟩

end FastScope
